import Mathlib

/-!
Verification development for the arcane-lang interpreter.

Shallow embedding of the interpreter's core (token model, lexer, parser,
value model, bytecode, compiler, VM) translated from the Rust sources
(src/src/token.rs, lexer.rs, parser.rs, ast.rs, value.rs, bytecode.rs,
compiler.rs, vm.rs), together with theorems settling the specification's
claims about that code.

Modelling conventions:
- Rust `f64` is modelled as `ℚ` (the claims under scrutiny involve only
  exact comparisons with 0.0, exact equality and exact arithmetic, never
  rounding or NaN behaviour).
- `Vec<T>` is a `List T` with push at the front for the VM value stack
  (top of stack = head) and push at the back for token/instruction lists.
- `Rc<T>` identity (`Rc::ptr_eq`) is modelled by a `Nat` allocation id
  carried next to the payload where identity matters.
- `HashMap<String, Value>` is modelled as `String → Option Value`.
- Rust panics (out-of-bounds indexing, `panic!` in `patch_jump`) are
  modelled as `Except.error` values whose message starts with "panic:",
  except in the VM where a dedicated `StepOut.crash` constructor keeps
  panics distinct from ordinary runtime errors.
- Loops over source text / token streams are modelled with an explicit
  fuel argument that is always instantiated large enough for the input.
-/

/-- A single-quote character as a string, used to build the Afrikaans error
messages of the interpreter verbatim. -/
def sglq : String := ⟨[Char.ofNat 39]⟩

/-! ## token.rs -/

/-- Token kinds from src/src/token.rs. The lexer (src/src/lexer.rs) also
references `Dot`, `FatArrow`, `Laai` and `Verskaf`, which are included here
so that the lexer embedding is complete. -/
inductive TokenType where
  | Stel
  | As
  | Anders
  | Terwyl
  | Druk
  | Waar
  | Vals
  | Funksie
  | Fn
  | Gee
  | Laat
  | Mut
  | Pas
  | Geval
  | Tipe
  | Of
  | Laai
  | Verskaf
  | Number (n : ℚ)
  | Str (s : String)
  | Identifier (name : String)
  | Plus
  | Minus
  | Star
  | Slash
  | Percent
  | Equal
  | EqualEqual
  | Bang
  | BangEqual
  | Less
  | LessEqual
  | Greater
  | GreaterEqual
  | And
  | Or
  | LeftParen
  | RightParen
  | LeftBrace
  | RightBrace
  | LeftBracket
  | RightBracket
  | Comma
  | Dot
  | Underscore
  | Arrow
  | FatArrow
  | Newline
  | Eof
deriving DecidableEq

/-- Discriminant of a token type, modelling Rust's `std::mem::discriminant`:
two token types have the same discriminant iff they are built from the same
constructor (payloads ignored). -/
def TokenType.discr : TokenType → Nat
  | .Stel => 0
  | .As => 1
  | .Anders => 2
  | .Terwyl => 3
  | .Druk => 4
  | .Waar => 5
  | .Vals => 6
  | .Funksie => 7
  | .Fn => 8
  | .Gee => 9
  | .Laat => 10
  | .Mut => 11
  | .Pas => 12
  | .Geval => 13
  | .Tipe => 14
  | .Of => 15
  | .Laai => 16
  | .Verskaf => 17
  | .Number _ => 18
  | .Str _ => 19
  | .Identifier _ => 20
  | .Plus => 21
  | .Minus => 22
  | .Star => 23
  | .Slash => 24
  | .Percent => 25
  | .Equal => 26
  | .EqualEqual => 27
  | .Bang => 28
  | .BangEqual => 29
  | .Less => 30
  | .LessEqual => 31
  | .Greater => 32
  | .GreaterEqual => 33
  | .And => 34
  | .Or => 35
  | .LeftParen => 36
  | .RightParen => 37
  | .LeftBrace => 38
  | .RightBrace => 39
  | .LeftBracket => 40
  | .RightBracket => 41
  | .Comma => 42
  | .Dot => 43
  | .Underscore => 44
  | .Arrow => 45
  | .FatArrow => 46
  | .Newline => 47
  | .Eof => 48

/-- Tokens from src/src/token.rs. -/
structure Token where
  token_type : TokenType
  lexeme : String
  line : Nat
deriving DecidableEq

/-! ## value.rs -/

/-- Function descriptor from src/src/value.rs. -/
structure Function where
  name : String
  arity : Nat
  chunk_index : Nat
  upvalue_count : Nat
deriving DecidableEq

/-- Upvalue capture descriptor from src/src/value.rs. -/
structure UpvalueDescriptor where
  index : Nat
  is_local : Bool
deriving DecidableEq

/-- Constructor descriptor for an algebraic data type, from src/src/value.rs. -/
structure TypeConstructorDef where
  type_name : String
  constructor_name : String
  arity : Nat
deriving DecidableEq

/-- Runtime values from src/src/value.rs. `Rc` allocations whose identity is
observable through `Rc::ptr_eq` carry an explicit `rc` id. For `String` and
`List` the `Rc` wrapper is dropped because Rust's `PartialEq` dereferences it
(content equality) and no embedded operation observes its identity. The
payloads of `Closure` (captured upvalue cells) and `NativeFunction` (the host
callback) are omitted: no embedded operation inspects them - equality on
those variants is `Rc::ptr_eq` on the outer `Rc`, and truthiness is
constantly true. `Adt`'s fields are inlined from the `AdtInstance` struct. -/
inductive Value where
  | Number (n : ℚ)
  | Boolean (b : Bool)
  | String (s : String)
  | Nil
  | List (items : List Value)
  | Function (rc : Nat) (f : Function)
  | Closure (rc : Nat) (f : Function)
  | NativeFunction (rc : Nat) (name : String) (arity : Nat)
  | TypeConstructor (rc : Nat) (d : TypeConstructorDef)
  | Adt (rc : Nat) (type_name : String) (constructor_name : String)
      (fields : List Value)

/-- Truthiness, from `Value::is_truthy` in src/src/value.rs. -/
def Value.is_truthy : Value → Bool
  | .Nil => false
  | .Boolean b => b
  | .Number n => decide (n ≠ 0)
  | .String s => !s.isEmpty
  | .List l => !l.isEmpty
  | .Function _ _ => true
  | .Closure _ _ => true
  | .NativeFunction _ _ _ => true
  | .TypeConstructor _ _ => true
  | .Adt _ _ _ _ => true

mutual

/-- Value equality from `impl PartialEq for Value` in src/src/value.rs:
structural for numbers, booleans, strings, nil, lists and ADT instances,
`Rc::ptr_eq` (allocation identity) for functions, closures, native functions
and type constructors. -/
def value_eq : Value → Value → Bool
  | .Number a, .Number b => decide (a = b)
  | .Boolean a, .Boolean b => a == b
  | .String a, .String b => a == b
  | .Nil, .Nil => true
  | .List a, .List b => value_list_eq a b
  | .Function ra _, .Function rb _ => ra == rb
  | .Closure ra _, .Closure rb _ => ra == rb
  | .NativeFunction ra _ _, .NativeFunction rb _ _ => ra == rb
  | .TypeConstructor ra _, .TypeConstructor rb _ => ra == rb
  | .Adt _ tna cna fa, .Adt _ tnb cnb fb =>
      tna == tnb && cna == cnb && value_list_eq fa fb
  | _, _ => false

/-- Elementwise equality of value vectors (Rust `Vec<Value>: PartialEq`). -/
def value_list_eq : List Value → List Value → Bool
  | [], [] => true
  | a :: as_, b :: bs => value_eq a b && value_list_eq as_ bs
  | _, _ => false

end

/-! ## bytecode.rs -/

/-- The complete instruction set declared in src/src/bytecode.rs, including
the legacy name-based `GetVar`/`SetVar` pair the file marks as deprecated. -/
inductive OpCode where
  | Constant (k : Nat)
  | Pop
  | GetGlobal (name : String)
  | SetGlobal (name : String)
  | DefineGlobal (name : String)
  | GetLocal (slot : Nat)
  | SetLocal (slot : Nat)
  | GetUpvalue (i : Nat)
  | SetUpvalue (i : Nat)
  | Closure (k : Nat) (descriptors : List UpvalueDescriptor)
  | CloseUpvalue
  | GetVar (name : String)
  | SetVar (name : String)
  | Add
  | Subtract
  | Multiply
  | Divide
  | Modulo
  | Negate
  | Equal
  | NotEqual
  | Less
  | LessEqual
  | Greater
  | GreaterEqual
  | Not
  | And
  | Or
  | Print
  | Jump (target : Nat)
  | JumpIfFalse (target : Nat)
  | Call (n : Nat)
  | TailCall (n : Nat)
  | Return
  | MakeList (n : Nat)
  | GetIndex
  | CheckConstructor (name : String) (arity : Nat)
  | GetField (i : Nat)
  | GetFieldPop (i : Nat)
  | Dup
  | LoadModule (path : String) (alias_ : String)
  | GetMember (name : String)
deriving DecidableEq

/-- Compilation unit from src/src/bytecode.rs: instruction list plus
constant pool. -/
structure Chunk where
  code : List OpCode
  constants : List Value

/-- Empty chunk (`Chunk::new`). -/
def Chunk.new : Chunk := ⟨[], []⟩

/-- Append an instruction, returning its index (`Chunk::write`). -/
def Chunk.write (c : Chunk) (op : OpCode) : Chunk × Nat :=
  ({ c with code := c.code ++ [op] }, c.code.length)

/-- Append a constant, returning its pool index (`Chunk::add_constant`). -/
def Chunk.add_constant (c : Chunk) (v : Value) : Chunk × Nat :=
  ({ c with constants := c.constants ++ [v] }, c.constants.length)

/-- Rewrite the target of a previously emitted jump (`Chunk::patch_jump`).
The source panics when asked to patch a non-jump instruction; the panic is
modelled as an `Except.error`. -/
def Chunk.patch_jump (c : Chunk) (offset target : Nat) : Except String Chunk :=
  match c.code.get? offset with
  | some (.Jump _) => .ok { c with code := c.code.set offset (.Jump target) }
  | some (.JumpIfFalse _) =>
      .ok { c with code := c.code.set offset (.JumpIfFalse target) }
  | some _ => .error "panic: Tried to patch non-jump instruction"
  | none => .error "panic: indeks buite grense"

/-! ## ast.rs -/

/-- Literals from src/src/ast.rs. -/
inductive Literal where
  | Number (n : ℚ)
  | Boolean (b : Bool)
  | Nil
deriving DecidableEq

/-- Expressions from src/src/ast.rs. -/
inductive Expr where
  | Binary (left : Expr) (operator : Token) (right : Expr)
  | Unary (operator : Token) (right : Expr)
  | Literal (lit : Literal)
  | Variable (name : String)
  | Grouping (inner : Expr)
  | Assign (name : String) (value : Expr)
deriving DecidableEq

/-- Statements from src/src/ast.rs. -/
inductive Stmt where
  | Expression (e : Expr)
  | Print (e : Expr)
  | VarDecl (name : String) (initializer : Expr)
  | Block (statements : List Stmt)
  | If (condition : Expr) (then_branch : Stmt) (else_branch : Option Stmt)
  | While (condition : Expr) (body : Stmt)

/-! ## compiler.rs -/

/-- Expression compilation from `Compiler::compile_expr` in
src/src/compiler.rs. The chunk under construction is threaded explicitly. -/
def Compiler.compile_expr : Expr → Chunk → Except String Chunk
  | .Literal lit, c =>
      let value : Value :=
        match lit with
        | .Number n => .Number n
        | .Boolean b => .Boolean b
        | .Nil => .Nil
      let (c, idx) := c.add_constant value
      .ok (c.write (.Constant idx)).1
  | .Variable name, c => .ok (c.write (.GetVar name)).1
  | .Assign name value, c => do
      let c ← Compiler.compile_expr value c
      .ok (c.write (.SetVar name)).1
  | .Grouping inner, c => Compiler.compile_expr inner c
  | .Unary operator right, c => do
      let c ← Compiler.compile_expr right c
      match operator.token_type with
      | .Minus => .ok (c.write .Negate).1
      | .Bang => .ok (c.write .Not).1
      | _ => .error "Onbekende unêre operator."
  | .Binary left operator right, c =>
      match operator.token_type with
      | .And => do
          let c ← Compiler.compile_expr left c
          let (c, jump) := c.write (.JumpIfFalse 0)
          let c := (c.write .Pop).1
          let c ← Compiler.compile_expr right c
          let after := c.code.length
          c.patch_jump jump after
      | .Or => do
          let c ← Compiler.compile_expr left c
          let (c, else_jump) := c.write (.JumpIfFalse 0)
          let (c, end_jump) := c.write (.Jump 0)
          let else_branch := c.code.length
          let c ← c.patch_jump else_jump else_branch
          let c := (c.write .Pop).1
          let c ← Compiler.compile_expr right c
          let endTarget := c.code.length
          c.patch_jump end_jump endTarget
      | _ => do
          let c ← Compiler.compile_expr left c
          let c ← Compiler.compile_expr right c
          match operator.token_type with
          | .Plus => .ok (c.write .Add).1
          | .Minus => .ok (c.write .Subtract).1
          | .Star => .ok (c.write .Multiply).1
          | .Slash => .ok (c.write .Divide).1
          | .EqualEqual => .ok (c.write .Equal).1
          | .BangEqual => .ok (c.write .NotEqual).1
          | .Less => .ok (c.write .Less).1
          | .LessEqual => .ok (c.write .LessEqual).1
          | .Greater => .ok (c.write .Greater).1
          | .GreaterEqual => .ok (c.write .GreaterEqual).1
          | _ => .error "Onbekende binêre operator."

mutual

/-- Statement compilation from `Compiler::compile_stmt` in
src/src/compiler.rs. -/
def Compiler.compile_stmt : Stmt → Chunk → Except String Chunk
  | .Expression expr, c => do
      let c ← Compiler.compile_expr expr c
      .ok (c.write .Pop).1
  | .Print expr, c => do
      let c ← Compiler.compile_expr expr c
      .ok (c.write .Print).1
  | .VarDecl name initializer, c => do
      let c ← Compiler.compile_expr initializer c
      .ok (c.write (.SetVar name)).1
  | .Block statements, c => Compiler.compile_stmt_list statements c
  | .If condition then_branch else_branch, c => do
      let c ← Compiler.compile_expr condition c
      let (c, jump_to_else) := c.write (.JumpIfFalse 0)
      let c := (c.write .Pop).1
      let c ← Compiler.compile_stmt then_branch c
      match else_branch with
      | some else_stmt => do
          let (c, jump_over_else) := c.write (.Jump 0)
          let else_start := c.code.length
          let c ← c.patch_jump jump_to_else else_start
          let c := (c.write .Pop).1
          let c ← Compiler.compile_stmt else_stmt c
          let after_else := c.code.length
          c.patch_jump jump_over_else after_else
      | none => do
          let after_if := c.code.length
          let c ← c.patch_jump jump_to_else after_if
          .ok (c.write .Pop).1
  | .While condition body, c => do
      let loop_start := c.code.length
      let c ← Compiler.compile_expr condition c
      let (c, exit_jump) := c.write (.JumpIfFalse 0)
      let c := (c.write .Pop).1
      let c ← Compiler.compile_stmt body c
      let c := (c.write (.Jump loop_start)).1
      let after_loop := c.code.length
      let c ← c.patch_jump exit_jump after_loop
      .ok (c.write .Pop).1

/-- Sequential compilation of a statement list (the loop bodies of
`Compiler::compile` and the `Stmt::Block` arm). -/
def Compiler.compile_stmt_list : List Stmt → Chunk → Except String Chunk
  | [], c => .ok c
  | s :: rest, c => do
      let c ← Compiler.compile_stmt s c
      Compiler.compile_stmt_list rest c

end

/-- Top-level compilation from `Compiler::compile` in src/src/compiler.rs:
compile every statement into a fresh chunk, then emit `Return`. -/
def Compiler.compile (statements : List Stmt) : Except String Chunk := do
  let c ← Compiler.compile_stmt_list statements Chunk.new
  .ok (c.write .Return).1

/-! ## vm.rs -/

/-- Error message for a non-number operand of a binary arithmetic or
comparison operator (vm.rs). -/
def num_op_msg (op : String) : String :=
  "Operande moet nommers wees vir " ++ sglq ++ op ++ sglq ++ "."

/-- Error message for reading an undefined variable (vm.rs `GetVar` arm). -/
def undefined_var_msg (name : String) : String :=
  "Ongedefinieerde veranderlike: " ++ sglq ++ name ++ sglq

/-- Stack-underflow message of `VM::pop`. -/
def stack_underflow_msg : String := "Stapel onderloop."

/-- Empty-stack message of `VM::peek`. -/
def stack_empty_msg : String := "Stapel is leeg."

/-- Division-by-zero message of the `Divide` arm. -/
def div_zero_msg : String := "Deling deur nul."

/-- Non-number negation message of the `Negate` arm. -/
def negate_msg : String :=
  "Operand moet " ++ sglq ++ "n nommer wees vir negasie."

/-- Globals map (`HashMap<String, Value>`) modelled as a function. -/
def Globals.empty : String → Option Value := fun _ => none

/-- `HashMap::insert`: bind `name` to `v`, leaving every other key as is. -/
def Globals.insert (g : String → Option Value) (name : String) (v : Value) :
    String → Option Value :=
  fun k => if k = name then some v else g k

/-- Comparison of two values by `VM::values_equal` in src/src/vm.rs
(note: unlike `value_eq` from value.rs, this helper only handles numbers,
booleans and nil and falls through to `false` for everything else). -/
def values_equal : Value → Value → Bool
  | .Number x, .Number y => decide (x = y)
  | .Boolean x, .Boolean y => x == y
  | .Nil, .Nil => true
  | _, _ => false

/-- VM state from src/src/vm.rs. The value stack has its top at the list
head. `output` collects the values printed by `Print` (vm.rs writes their
textual rendering to stdout; the rendering itself is not needed by any
claim and is not embedded). -/
structure VM where
  chunk : Chunk
  ip : Nat
  stack : List Value
  globals : String → Option Value
  output : List Value

/-- Fresh VM for a chunk (`VM::new`). -/
def VM.new (c : Chunk) : VM := ⟨c, 0, [], Globals.empty, []⟩

/-- Outcome of executing one instruction. `halt` is `run` returning
`Ok(())` (ip past the end, or `Return`); `err` is an `Err(String)`;
`crash` models a Rust panic (out-of-bounds indexing). -/
inductive StepOut where
  | halt (vm : VM)
  | cont (vm : VM)
  | err (msg : String)
  | crash (msg : String)

/-- Modelled from the spec: src/src/vm.rs has no arm for the `Modulo`
instruction (only the `OpCode::Modulo` declaration in bytecode.rs is in
src). Per spec §4.1 the operator is Number-typed and "modulo by 0.0 fails";
the remainder follows Rust's `%` on f64 (truncated division), here on ℚ:
x % y = x - y * trunc(x / y). The Afrikaans message texts for this arm are
not in src and follow the pattern of the `Divide` arm. -/
def rust_rem (x y : ℚ) : ℚ :=
  x - y * ((Int.tdiv (x / y).num (x / y).den : ℤ) : ℚ)

/-- Modelled from the spec: execution of the `Modulo` instruction (see
`rust_rem`); mirrors the structure of the `Divide` arm of `VM::run`. -/
def VM.exec_modulo (vm : VM) : StepOut :=
  match vm.stack with
  | b :: a :: rest =>
      match a, b with
      | .Number x, .Number y =>
          if y = 0 then .err "Modulo deur nul."
          else .cont { vm with stack := .Number (rust_rem x y) :: rest }
      | _, _ => .err (num_op_msg "%")
  | _ => .err stack_underflow_msg

/-- Execution of a single fetched instruction, from the big `match` in
`VM::run` (src/src/vm.rs, lines 32-176). `vm` has already had its ip
incremented past the instruction, exactly as in the source. The arms for
opcodes that the `match` in src/src/vm.rs does not cover (globals trio,
locals, upvalues, closures, calls, lists, pattern matching, modules) are
not in src; they are mapped to a runtime error here and are never emitted
by the compiler in src/src/compiler.rs. `Modulo` is the one missing arm a
claim needs and is modelled from the spec in `VM.exec_modulo`. -/
def VM.exec (vm : VM) (instruction : OpCode) : StepOut :=
  match instruction with
  | .Constant idx =>
      match vm.chunk.constants.get? idx with
      | some value => .cont { vm with stack := value :: vm.stack }
      | none => .crash "panic: konstante-indeks buite grense"
  | .Pop =>
      match vm.stack with
      | _ :: rest => .cont { vm with stack := rest }
      | [] => .err stack_underflow_msg
  | .GetVar name =>
      match vm.globals name with
      | some value => .cont { vm with stack := value :: vm.stack }
      | none => .err (undefined_var_msg name)
  | .SetVar name =>
      match vm.stack with
      | value :: _ =>
          .cont { vm with globals := Globals.insert vm.globals name value }
      | [] => .err stack_empty_msg
  | .Add =>
      match vm.stack with
      | b :: a :: rest =>
          match a, b with
          | .Number x, .Number y =>
              .cont { vm with stack := .Number (x + y) :: rest }
          | _, _ => .err (num_op_msg "+")
      | _ => .err stack_underflow_msg
  | .Subtract =>
      match vm.stack with
      | b :: a :: rest =>
          match a, b with
          | .Number x, .Number y =>
              .cont { vm with stack := .Number (x - y) :: rest }
          | _, _ => .err (num_op_msg "-")
      | _ => .err stack_underflow_msg
  | .Multiply =>
      match vm.stack with
      | b :: a :: rest =>
          match a, b with
          | .Number x, .Number y =>
              .cont { vm with stack := .Number (x * y) :: rest }
          | _, _ => .err (num_op_msg "*")
      | _ => .err stack_underflow_msg
  | .Divide =>
      match vm.stack with
      | b :: a :: rest =>
          match a, b with
          | .Number x, .Number y =>
              if y = 0 then .err div_zero_msg
              else .cont { vm with stack := .Number (x / y) :: rest }
          | _, _ => .err (num_op_msg "/")
      | _ => .err stack_underflow_msg
  | .Modulo => VM.exec_modulo vm
  | .Negate =>
      match vm.stack with
      | value :: rest =>
          match value with
          | .Number n => .cont { vm with stack := .Number (-n) :: rest }
          | _ => .err negate_msg
      | [] => .err stack_underflow_msg
  | .Equal =>
      match vm.stack with
      | b :: a :: rest =>
          .cont { vm with stack := .Boolean (values_equal a b) :: rest }
      | _ => .err stack_underflow_msg
  | .NotEqual =>
      match vm.stack with
      | b :: a :: rest =>
          .cont { vm with stack := .Boolean (!values_equal a b) :: rest }
      | _ => .err stack_underflow_msg
  | .Less =>
      match vm.stack with
      | b :: a :: rest =>
          match a, b with
          | .Number x, .Number y =>
              .cont { vm with stack := .Boolean (decide (x < y)) :: rest }
          | _, _ => .err (num_op_msg "<")
      | _ => .err stack_underflow_msg
  | .LessEqual =>
      match vm.stack with
      | b :: a :: rest =>
          match a, b with
          | .Number x, .Number y =>
              .cont { vm with stack := .Boolean (decide (x ≤ y)) :: rest }
          | _, _ => .err (num_op_msg "<=")
      | _ => .err stack_underflow_msg
  | .Greater =>
      match vm.stack with
      | b :: a :: rest =>
          match a, b with
          | .Number x, .Number y =>
              .cont { vm with stack := .Boolean (decide (y < x)) :: rest }
          | _, _ => .err (num_op_msg ">")
      | _ => .err stack_underflow_msg
  | .GreaterEqual =>
      match vm.stack with
      | b :: a :: rest =>
          match a, b with
          | .Number x, .Number y =>
              .cont { vm with stack := .Boolean (decide (y ≤ x)) :: rest }
          | _, _ => .err (num_op_msg ">=")
      | _ => .err stack_underflow_msg
  | .Not =>
      match vm.stack with
      | value :: rest =>
          .cont { vm with stack := .Boolean (!value.is_truthy) :: rest }
      | [] => .err stack_underflow_msg
  | .And => .cont vm
  | .Or => .cont vm
  | .Print =>
      match vm.stack with
      | value :: rest =>
          .cont { vm with stack := rest, output := vm.output ++ [value] }
      | [] => .err stack_underflow_msg
  | .Jump target => .cont { vm with ip := target }
  | .JumpIfFalse target =>
      match vm.stack with
      | condition :: _ =>
          if condition.is_truthy then .cont vm
          else .cont { vm with ip := target }
      | [] => .err stack_empty_msg
  | .Return => .halt vm
  | _ => .err "instruksie nie in src geimplementeer nie"

/-- One iteration of the `VM::run` loop: return `Ok(())` when the ip has
run past the end of the code, otherwise fetch `code[ip]`, increment the ip
and execute. -/
def VM.step (vm : VM) : StepOut :=
  match vm.chunk.code.get? vm.ip with
  | none => .halt vm
  | some instruction => VM.exec { vm with ip := vm.ip + 1 } instruction

/-- Result of running the VM loop with the given amount of fuel. -/
inductive RunOut where
  | finished (vm : VM)
  | errored (msg : String)
  | crashed (msg : String)
  | out_of_fuel (vm : VM)

/-- The `VM::run` loop, fuelled. -/
def VM.run : Nat → VM → RunOut
  | 0, vm => .out_of_fuel vm
  | fuel + 1, vm =>
      match vm.step with
      | .halt v => .finished v
      | .err m => .errored m
      | .crash m => .crashed m
      | .cont v => VM.run fuel v

/-! ## lexer.rs -/

/-- Numeric value of an ASCII digit character. -/
def digit_val (c : Char) : Nat := c.toNat - 48

/-- Decimal value of a digit list. -/
def nat_of_digits (cs : List Char) : Nat :=
  cs.foldl (fun a c => a * 10 + digit_val c) 0

/-- Value of a numeric lexeme, modelling `lexeme.parse::<f64>().unwrap()`
on the lexemes the scanner produces (digits optionally followed by a point
and digits), exactly on ℚ. -/
def parse_number (cs : List Char) : ℚ :=
  let ip := cs.takeWhile (fun c => c.isDigit)
  let rest := cs.dropWhile (fun c => c.isDigit)
  match rest with
  | _ :: frac =>
      (nat_of_digits ip : ℚ) + (nat_of_digits frac : ℚ) / ((10 : ℚ) ^ frac.length)
  | [] => (nat_of_digits ip : ℚ)

/-- Scanner state from src/src/lexer.rs. -/
structure Lexer where
  source : List Char
  tokens : List Token
  start : Nat
  current : Nat
  line : Nat

/-- Fresh scanner over a source string (`Lexer::new`). -/
def Lexer.new (src : String) : Lexer := ⟨src.data, [], 0, 0, 1⟩

/-- `Lexer::is_at_end`. -/
def Lexer.is_at_end (l : Lexer) : Bool := l.source.length ≤ l.current

/-- `Lexer::advance`: read the current character and move past it. The
out-of-bounds panic (never reached: every caller checks `is_at_end`) is
modelled as an error. -/
def Lexer.advance (l : Lexer) : Except String (Char × Lexer) :=
  match l.source.get? l.current with
  | some c => .ok (c, { l with current := l.current + 1 })
  | none => .error "panic: indeks buite grense"

/-- `Lexer::peek`: current character, or NUL at the end of input. -/
def Lexer.peek (l : Lexer) : Char := (l.source.get? l.current).getD '\x00'

/-- `Lexer::peek_next`. -/
def Lexer.peek_next (l : Lexer) : Char :=
  (l.source.get? (l.current + 1)).getD '\x00'

/-- `Lexer::match_char`: consume the current character iff it equals
`expected`. -/
def Lexer.match_char (l : Lexer) (expected : Char) : Bool × Lexer :=
  match l.source.get? l.current with
  | some c =>
      if c = expected then (true, { l with current := l.current + 1 })
      else (false, l)
  | none => (false, l)

/-- `Lexer::add_token`: push a token whose lexeme is
`source[start..current]`. -/
def Lexer.add_token (l : Lexer) (token_type : TokenType) : Lexer :=
  let lexeme : String := ⟨(l.source.drop l.start).take (l.current - l.start)⟩
  { l with tokens := l.tokens ++ [⟨token_type, lexeme, l.line⟩] }

/-- The `while` loop of `Lexer::number` (and its fractional-part loop):
advance while the current character is an ASCII digit. Fuelled; the fuel is
always at least the remaining source length. -/
def Lexer.skip_digits : Nat → Lexer → Lexer
  | 0, l => l
  | fuel + 1, l =>
      if l.peek.isDigit then
        Lexer.skip_digits fuel { l with current := l.current + 1 }
      else l

/-- `Lexer::number`. -/
def Lexer.number (l : Lexer) : Lexer :=
  let l := Lexer.skip_digits l.source.length l
  let l :=
    if l.peek = '.' && l.peek_next.isDigit then
      Lexer.skip_digits l.source.length { l with current := l.current + 1 }
    else l
  let lexeme := (l.source.drop l.start).take (l.current - l.start)
  l.add_token (.Number (parse_number lexeme))

/-- The loop of `Lexer::identifier`: advance while alphanumeric or
underscore (Rust uses Unicode `is_alphanumeric`; the embedding's inputs are
ASCII, where `Char.isAlphanum` agrees). -/
def Lexer.skip_ident_chars : Nat → Lexer → Lexer
  | 0, l => l
  | fuel + 1, l =>
      if l.peek.isAlphanum || l.peek = '_' then
        Lexer.skip_ident_chars fuel { l with current := l.current + 1 }
      else l

/-- `Lexer::identifier`, including the keyword table. Note that "stel" is
absent from the table (it scans as an identifier) while "laat" maps to the
`Laat` keyword. -/
def Lexer.identifier (l : Lexer) : Lexer :=
  let l := Lexer.skip_ident_chars l.source.length l
  let lexeme : String := ⟨(l.source.drop l.start).take (l.current - l.start)⟩
  let token_type : TokenType :=
    match lexeme with
    | "as" => .As
    | "anders" => .Anders
    | "terwyl" => .Terwyl
    | "druk" => .Druk
    | "waar" => .Waar
    | "vals" => .Vals
    | "funksie" => .Funksie
    | "fn" => .Fn
    | "gee" => .Gee
    | "laat" => .Laat
    | "pas" => .Pas
    | "geval" => .Geval
    | "tipe" => .Tipe
    | "of" => .Of
    | "laai" => .Laai
    | "verskaf" => .Verskaf
    | "_" => .Underscore
    | _ => .Identifier lexeme
  l.add_token token_type

/-- The scanning loop of `Lexer::string`: walk to the closing quote,
counting lines and stepping over backslash escapes. Fuelled. -/
def Lexer.string_loop : Nat → Lexer → Lexer
  | 0, l => l
  | fuel + 1, l =>
      if l.peek != '\x22' && !l.is_at_end then
        let l := if l.peek = '\n' then { l with line := l.line + 1 } else l
        if l.peek = '\\' && !l.is_at_end then
          let l := { l with current := l.current + 1 }
          let l := if l.is_at_end then l else { l with current := l.current + 1 }
          Lexer.string_loop fuel l
        else Lexer.string_loop fuel { l with current := l.current + 1 }
      else l

/-- `Lexer::process_escapes`. -/
def process_escapes : List Char → Except String String
  | [] => .ok ""
  | c :: rest =>
      if c = '\\' then
        match rest with
        | [] => .error ("Onverwagte einde van string na " ++ "\\")
        | e :: rest' =>
            let r : Except String Char :=
              if e = 'n' then .ok '\n'
              else if e = 't' then .ok '\t'
              else if e = 'r' then .ok '\r'
              else if e = '\\' then .ok '\\'
              else if e = '\x22' then .ok '\x22'
              else .error ("Ongeldige ontsnappingskarakter: " ++ "\\" ++ ⟨[e]⟩)
            do
              let ch ← r
              let s ← process_escapes rest'
              .ok ⟨ch :: s.data⟩
      else do
        let s ← process_escapes rest
        .ok ⟨c :: s.data⟩

/-- `Lexer::string`: scan a string literal (the opening quote has already
been consumed). -/
def Lexer.string (l : Lexer) : Except String Lexer :=
  let start_line := l.line
  let l := Lexer.string_loop l.source.length l
  if l.is_at_end then
    .error ("Onbeëindigde string op lyn " ++ toString start_line)
  else do
    let (_, l) ← l.advance
    let value := (l.source.drop (l.start + 1)).take (l.current - 1 - (l.start + 1))
    let processed ← process_escapes value
    .ok (l.add_token (.Str processed))

/-- The comment-skipping loop of the '/' arm of `Lexer::scan_token`. -/
def Lexer.skip_comment : Nat → Lexer → Lexer
  | 0, l => l
  | fuel + 1, l =>
      if l.peek != '\n' && !l.is_at_end then
        Lexer.skip_comment fuel { l with current := l.current + 1 }
      else l

/-- `Lexer::scan_token`: scan one token starting at `current`. -/
def Lexer.scan_token (l : Lexer) : Except String Lexer := do
  let (c, l) ← l.advance
  if c = '(' then .ok (l.add_token .LeftParen)
  else if c = ')' then .ok (l.add_token .RightParen)
  else if c = '\x7b' then .ok (l.add_token .LeftBrace)
  else if c = '\x7d' then .ok (l.add_token .RightBrace)
  else if c = '[' then .ok (l.add_token .LeftBracket)
  else if c = ']' then .ok (l.add_token .RightBracket)
  else if c = ',' then .ok (l.add_token .Comma)
  else if c = '.' then .ok (l.add_token .Dot)
  else if c = '+' then .ok (l.add_token .Plus)
  else if c = '-' then
    let (m, l) := l.match_char '>'
    if m then .ok (l.add_token .Arrow) else .ok (l.add_token .Minus)
  else if c = '*' then .ok (l.add_token .Star)
  else if c = '%' then .ok (l.add_token .Percent)
  else if c = '/' then
    let (m, l) := l.match_char '/'
    if m then .ok (Lexer.skip_comment l.source.length l)
    else .ok (l.add_token .Slash)
  else if c = '\x22' then l.string
  else if c = '=' then
    let (m, l) := l.match_char '='
    if m then .ok (l.add_token .EqualEqual)
    else
      let (m2, l) := l.match_char '>'
      if m2 then .ok (l.add_token .FatArrow) else .ok (l.add_token .Equal)
  else if c = '!' then
    let (m, l) := l.match_char '='
    if m then .ok (l.add_token .BangEqual) else .ok (l.add_token .Bang)
  else if c = '<' then
    let (m, l) := l.match_char '='
    if m then .ok (l.add_token .LessEqual) else .ok (l.add_token .Less)
  else if c = '>' then
    let (m, l) := l.match_char '='
    if m then .ok (l.add_token .GreaterEqual) else .ok (l.add_token .Greater)
  else if c = '&' then
    let (m, l) := l.match_char '&'
    if m then .ok (l.add_token .And)
    else .error ("Onverwagte karakter " ++ sglq ++ "&" ++ sglq ++
      " op lyn " ++ toString l.line)
  else if c = '|' then
    let (m, l) := l.match_char '|'
    if m then .ok (l.add_token .Or)
    else .error ("Onverwagte karakter " ++ sglq ++ "|" ++ sglq ++
      " op lyn " ++ toString l.line)
  else if c = '\n' then
    let l := l.add_token .Newline
    .ok { l with line := l.line + 1 }
  else if c = ' ' || c = '\r' || c = '\t' then .ok l
  else if c.isDigit then .ok l.number
  else if c.isAlpha || c = '_' then .ok l.identifier
  else
    .error ("Onverwagte karakter " ++ sglq ++ ⟨[c]⟩ ++ sglq ++
      " op lyn " ++ toString l.line)

/-- The loop of `Lexer::scan_tokens`. Fuelled: every iteration consumes at
least one character, so `source.length + 1` fuel always suffices. -/
def Lexer.scan_loop : Nat → Lexer → Except String Lexer
  | 0, l => if l.is_at_end then .ok l else .error "brandstof op"
  | fuel + 1, l =>
      if l.is_at_end then .ok l
      else do
        let l := { l with start := l.current }
        let l ← l.scan_token
        Lexer.scan_loop fuel l

/-- `Lexer::scan_tokens`: scan a whole source string and append the EOF
token. -/
def Lexer.scan_tokens (src : String) : Except String (List Token) := do
  let l ← Lexer.scan_loop (src.data.length + 1) (Lexer.new src)
  .ok (l.tokens ++ [⟨.Eof, "", l.line⟩])

/-! ## parser.rs -/

/-- Parser state from src/src/parser.rs. -/
structure Parser where
  tokens : List Token
  current : Nat

/-- Message used where Rust would panic on an out-of-bounds token index
(never reached: the token list ends in an `Eof` sentinel the parser does
not step past). -/
def parser_oob_msg : String := "panic: indeks buite grense"

/-- Fuel-exhaustion marker for the fuelled parsing functions; never
produced when the fuel is at least `Parser.fuel_for`. -/
def parser_fuel_msg : String := "brandstof op"

/-- `Parser::peek`. -/
def Parser.peek (p : Parser) : Except String Token :=
  match p.tokens.get? p.current with
  | some t => .ok t
  | none => .error parser_oob_msg

/-- `Parser::is_at_end`. -/
def Parser.is_at_end (p : Parser) : Except String Bool := do
  let t ← p.peek
  match t.token_type with
  | .Eof => .ok true
  | _ => .ok false

/-- `Parser::advance`: step past the current token (unless at `Eof`) and
return the token before the new position. -/
def Parser.advance (p : Parser) : Except String (Token × Parser) := do
  let e ← p.is_at_end
  let p := if e then p else { p with current := p.current + 1 }
  if p.current = 0 then .error parser_oob_msg
  else
    match p.tokens.get? (p.current - 1) with
    | some t => .ok (t, p)
    | none => .error parser_oob_msg

/-- `Parser::check`: discriminant comparison of the current token's type
with `token_type` (false at `Eof`). -/
def Parser.check (p : Parser) (token_type : TokenType) : Except String Bool := do
  let e ← p.is_at_end
  if e then .ok false
  else do
    let t ← p.peek
    .ok (t.token_type.discr == token_type.discr)

/-- `Parser::consume`. -/
def Parser.consume (p : Parser) (token_type : TokenType) (message : String) :
    Except String (Token × Parser) := do
  let c ← p.check token_type
  if c then p.advance
  else do
    let t ← p.peek
    .error (message ++ " (lyn " ++ toString t.line ++ ")")

/-- `Parser::consume_identifier`. -/
def Parser.consume_identifier (p : Parser) (message : String) :
    Except String (String × Parser) := do
  let t ← p.peek
  match t.token_type with
  | .Identifier name => do
      let (_, p) ← p.advance
      .ok (name, p)
  | _ => .error (message ++ " (lyn " ++ toString t.line ++ ")")

/-- `Parser::consume_newline_or_eof`. -/
def Parser.consume_newline_or_eof (p : Parser) : Except String Parser := do
  let c ← p.check .Newline
  if c then do
    let (_, p) ← p.advance
    .ok p
  else do
    let e ← p.is_at_end
    let rb ← p.check .RightBrace
    if e || rb then .ok p
    else do
      let t ← p.peek
      .error ("Verwag nuwe lyn na stelling. (lyn " ++ toString t.line ++ ")")

/-- `Parser::skip_newlines`, fuelled. -/
def Parser.skip_newlines : Nat → Parser → Except String Parser
  | 0, _ => .error parser_fuel_msg
  | fuel + 1, p => do
      let c ← p.check .Newline
      if c then do
        let (_, p) ← p.advance
        Parser.skip_newlines fuel p
      else .ok p

mutual

/-- `Parser::declaration`. -/
def Parser.declaration : Nat → Parser → Except String (Stmt × Parser)
  | 0, _ => .error parser_fuel_msg
  | fuel + 1, p => do
      let c ← p.check .Stel
      if c then do
        let (_, p) ← p.advance
        Parser.var_declaration fuel p
      else Parser.statement fuel p

/-- `Parser::var_declaration`. -/
def Parser.var_declaration : Nat → Parser → Except String (Stmt × Parser)
  | 0, _ => .error parser_fuel_msg
  | fuel + 1, p => do
      let (name, p) ← p.consume_identifier "Verwag veranderlike naam."
      let (_, p) ← p.consume .Equal
        ("Verwag " ++ sglq ++ "=" ++ sglq ++ " na veranderlike naam.")
      let (initializer, p) ← Parser.expression fuel p
      let p ← p.consume_newline_or_eof
      .ok (.VarDecl name initializer, p)

/-- `Parser::statement`. -/
def Parser.statement : Nat → Parser → Except String (Stmt × Parser)
  | 0, _ => .error parser_fuel_msg
  | fuel + 1, p => do
      let c ← p.check .Druk
      if c then do
        let (_, p) ← p.advance
        Parser.print_statement fuel p
      else do
        let c ← p.check .As
        if c then do
          let (_, p) ← p.advance
          Parser.if_statement fuel p
        else do
          let c ← p.check .Terwyl
          if c then do
            let (_, p) ← p.advance
            Parser.while_statement fuel p
          else do
            let c ← p.check .LeftBrace
            if c then do
              let (_, p) ← p.advance
              let (stmts, p) ← Parser.block fuel p
              .ok (.Block stmts, p)
            else Parser.expression_statement fuel p

/-- `Parser::print_statement`. -/
def Parser.print_statement : Nat → Parser → Except String (Stmt × Parser)
  | 0, _ => .error parser_fuel_msg
  | fuel + 1, p => do
      let (_, p) ← p.consume .LeftParen
        ("Verwag " ++ sglq ++ "(" ++ sglq ++ " na " ++ sglq ++ "druk" ++ sglq ++ ".")
      let (value, p) ← Parser.expression fuel p
      let (_, p) ← p.consume .RightParen
        ("Verwag " ++ sglq ++ ")" ++ sglq ++ " na uitdrukking.")
      let p ← p.consume_newline_or_eof
      .ok (.Print value, p)

/-- `Parser::if_statement`. -/
def Parser.if_statement : Nat → Parser → Except String (Stmt × Parser)
  | 0, _ => .error parser_fuel_msg
  | fuel + 1, p => do
      let (_, p) ← p.consume .LeftParen
        ("Verwag " ++ sglq ++ "(" ++ sglq ++ " na " ++ sglq ++ "as" ++ sglq ++ ".")
      let (condition, p) ← Parser.expression fuel p
      let (_, p) ← p.consume .RightParen
        ("Verwag " ++ sglq ++ ")" ++ sglq ++ " na voorwaarde.")
      let p ← Parser.skip_newlines (p.tokens.length + 1) p
      let (_, p) ← p.consume .LeftBrace
        ("Verwag " ++ sglq ++ "\x7b" ++ sglq ++ " na " ++ sglq ++ "as" ++ sglq ++
          " voorwaarde.")
      let (then_stmts, p) ← Parser.block fuel p
      let p ← Parser.skip_newlines (p.tokens.length + 1) p
      let c ← p.check .Anders
      if c then do
        let (_, p) ← p.advance
        let p ← Parser.skip_newlines (p.tokens.length + 1) p
        let (_, p) ← p.consume .LeftBrace
          ("Verwag " ++ sglq ++ "\x7b" ++ sglq ++ " na " ++ sglq ++ "anders" ++
            sglq ++ ".")
        let (else_stmts, p) ← Parser.block fuel p
        .ok (.If condition (.Block then_stmts) (some (.Block else_stmts)), p)
      else
        .ok (.If condition (.Block then_stmts) none, p)

/-- `Parser::while_statement`. -/
def Parser.while_statement : Nat → Parser → Except String (Stmt × Parser)
  | 0, _ => .error parser_fuel_msg
  | fuel + 1, p => do
      let (_, p) ← p.consume .LeftParen
        ("Verwag " ++ sglq ++ "(" ++ sglq ++ " na " ++ sglq ++ "terwyl" ++ sglq ++ ".")
      let (condition, p) ← Parser.expression fuel p
      let (_, p) ← p.consume .RightParen
        ("Verwag " ++ sglq ++ ")" ++ sglq ++ " na voorwaarde.")
      let p ← Parser.skip_newlines (p.tokens.length + 1) p
      let (_, p) ← p.consume .LeftBrace
        ("Verwag " ++ sglq ++ "\x7b" ++ sglq ++ " na " ++ sglq ++ "terwyl" ++
          sglq ++ " voorwaarde.")
      let (body_stmts, p) ← Parser.block fuel p
      .ok (.While condition (.Block body_stmts), p)

/-- `Parser::block` (the leading `skip_newlines` plus its loop, which is
`Parser.block_loop`). -/
def Parser.block : Nat → Parser → Except String (List Stmt × Parser)
  | 0, _ => .error parser_fuel_msg
  | fuel + 1, p => do
      let p ← Parser.skip_newlines (p.tokens.length + 1) p
      Parser.block_loop fuel p []

/-- The statement loop of `Parser::block`, with the closing-brace
consumption. -/
def Parser.block_loop : Nat → Parser → List Stmt → Except String (List Stmt × Parser)
  | 0, _, _ => .error parser_fuel_msg
  | fuel + 1, p, acc => do
      let rb ← p.check .RightBrace
      let e ← p.is_at_end
      if !rb && !e then do
        let (s, p) ← Parser.declaration fuel p
        let p ← Parser.skip_newlines (p.tokens.length + 1) p
        Parser.block_loop fuel p (acc ++ [s])
      else do
        let (_, p) ← p.consume .RightBrace
          ("Verwag " ++ sglq ++ "\x7d" ++ sglq ++ " na blok.")
        .ok (acc, p)

/-- `Parser::expression_statement`. -/
def Parser.expression_statement : Nat → Parser → Except String (Stmt × Parser)
  | 0, _ => .error parser_fuel_msg
  | fuel + 1, p => do
      let (expr, p) ← Parser.expression fuel p
      let p ← p.consume_newline_or_eof
      .ok (.Expression expr, p)

/-- `Parser::expression`. -/
def Parser.expression : Nat → Parser → Except String (Expr × Parser)
  | 0, _ => .error parser_fuel_msg
  | fuel + 1, p => Parser.assignment fuel p

/-- `Parser::assignment`. -/
def Parser.assignment : Nat → Parser → Except String (Expr × Parser)
  | 0, _ => .error parser_fuel_msg
  | fuel + 1, p => do
      let (expr, p) ← Parser.or fuel p
      let c ← p.check .Equal
      if c then do
        let (_, p) ← p.advance
        let (value, p) ← Parser.assignment fuel p
        match expr with
        | .Variable name => .ok (.Assign name value, p)
        | _ => .error "Ongeldige toewysing teiken."
      else .ok (expr, p)

/-- `Parser::or`. -/
def Parser.or : Nat → Parser → Except String (Expr × Parser)
  | 0, _ => .error parser_fuel_msg
  | fuel + 1, p => do
      let (expr, p) ← Parser.and fuel p
      Parser.or_loop fuel p expr

/-- The `while` loop of `Parser::or`. -/
def Parser.or_loop : Nat → Parser → Expr → Except String (Expr × Parser)
  | 0, _, _ => .error parser_fuel_msg
  | fuel + 1, p, expr => do
      let c ← p.check .Or
      if c then do
        let (operator, p) ← p.advance
        let (right, p) ← Parser.and fuel p
        Parser.or_loop fuel p (.Binary expr operator right)
      else .ok (expr, p)

/-- `Parser::and`. -/
def Parser.and : Nat → Parser → Except String (Expr × Parser)
  | 0, _ => .error parser_fuel_msg
  | fuel + 1, p => do
      let (expr, p) ← Parser.equality fuel p
      Parser.and_loop fuel p expr

/-- The `while` loop of `Parser::and`. -/
def Parser.and_loop : Nat → Parser → Expr → Except String (Expr × Parser)
  | 0, _, _ => .error parser_fuel_msg
  | fuel + 1, p, expr => do
      let c ← p.check .And
      if c then do
        let (operator, p) ← p.advance
        let (right, p) ← Parser.equality fuel p
        Parser.and_loop fuel p (.Binary expr operator right)
      else .ok (expr, p)

/-- `Parser::equality`. -/
def Parser.equality : Nat → Parser → Except String (Expr × Parser)
  | 0, _ => .error parser_fuel_msg
  | fuel + 1, p => do
      let (expr, p) ← Parser.comparison fuel p
      Parser.equality_loop fuel p expr

/-- The `while` loop of `Parser::equality`. -/
def Parser.equality_loop : Nat → Parser → Expr → Except String (Expr × Parser)
  | 0, _, _ => .error parser_fuel_msg
  | fuel + 1, p, expr => do
      let c1 ← p.check .EqualEqual
      let c2 ← p.check .BangEqual
      if c1 || c2 then do
        let (operator, p) ← p.advance
        let (right, p) ← Parser.comparison fuel p
        Parser.equality_loop fuel p (.Binary expr operator right)
      else .ok (expr, p)

/-- `Parser::comparison`. -/
def Parser.comparison : Nat → Parser → Except String (Expr × Parser)
  | 0, _ => .error parser_fuel_msg
  | fuel + 1, p => do
      let (expr, p) ← Parser.term fuel p
      Parser.comparison_loop fuel p expr

/-- The `while` loop of `Parser::comparison`. -/
def Parser.comparison_loop : Nat → Parser → Expr → Except String (Expr × Parser)
  | 0, _, _ => .error parser_fuel_msg
  | fuel + 1, p, expr => do
      let c1 ← p.check .Less
      let c2 ← p.check .LessEqual
      let c3 ← p.check .Greater
      let c4 ← p.check .GreaterEqual
      if c1 || c2 || c3 || c4 then do
        let (operator, p) ← p.advance
        let (right, p) ← Parser.term fuel p
        Parser.comparison_loop fuel p (.Binary expr operator right)
      else .ok (expr, p)

/-- `Parser::term`. -/
def Parser.term : Nat → Parser → Except String (Expr × Parser)
  | 0, _ => .error parser_fuel_msg
  | fuel + 1, p => do
      let (expr, p) ← Parser.factor fuel p
      Parser.term_loop fuel p expr

/-- The `while` loop of `Parser::term`. -/
def Parser.term_loop : Nat → Parser → Expr → Except String (Expr × Parser)
  | 0, _, _ => .error parser_fuel_msg
  | fuel + 1, p, expr => do
      let c1 ← p.check .Plus
      let c2 ← p.check .Minus
      if c1 || c2 then do
        let (operator, p) ← p.advance
        let (right, p) ← Parser.factor fuel p
        Parser.term_loop fuel p (.Binary expr operator right)
      else .ok (expr, p)

/-- `Parser::factor`. -/
def Parser.factor : Nat → Parser → Except String (Expr × Parser)
  | 0, _ => .error parser_fuel_msg
  | fuel + 1, p => do
      let (expr, p) ← Parser.unary fuel p
      Parser.factor_loop fuel p expr

/-- The `while` loop of `Parser::factor`. -/
def Parser.factor_loop : Nat → Parser → Expr → Except String (Expr × Parser)
  | 0, _, _ => .error parser_fuel_msg
  | fuel + 1, p, expr => do
      let c1 ← p.check .Star
      let c2 ← p.check .Slash
      if c1 || c2 then do
        let (operator, p) ← p.advance
        let (right, p) ← Parser.unary fuel p
        Parser.factor_loop fuel p (.Binary expr operator right)
      else .ok (expr, p)

/-- `Parser::unary`. -/
def Parser.unary : Nat → Parser → Except String (Expr × Parser)
  | 0, _ => .error parser_fuel_msg
  | fuel + 1, p => do
      let c1 ← p.check .Bang
      let c2 ← p.check .Minus
      if c1 || c2 then do
        let (operator, p) ← p.advance
        let (right, p) ← Parser.unary fuel p
        .ok (.Unary operator right, p)
      else Parser.primary fuel p

/-- `Parser::primary`. -/
def Parser.primary : Nat → Parser → Except String (Expr × Parser)
  | 0, _ => .error parser_fuel_msg
  | fuel + 1, p => do
      let c ← p.check .Waar
      if c then do
        let (_, p) ← p.advance
        .ok (.Literal (.Boolean true), p)
      else do
        let c ← p.check .Vals
        if c then do
          let (_, p) ← p.advance
          .ok (.Literal (.Boolean false), p)
        else do
          let t ← p.peek
          match t.token_type with
          | .Number n => do
              let (_, p) ← p.advance
              .ok (.Literal (.Number n), p)
          | .Identifier name => do
              let (_, p) ← p.advance
              .ok (.Variable name, p)
          | _ => do
              let c ← p.check .LeftParen
              if c then do
                let (_, p) ← p.advance
                let (expr, p) ← Parser.expression fuel p
                let (_, p) ← p.consume .RightParen
                  ("Verwag " ++ sglq ++ ")" ++ sglq ++ " na uitdrukking.")
                .ok (.Grouping expr, p)
              else do
                let t ← p.peek
                .error ("Verwag uitdrukking op lyn " ++ toString t.line ++ ".")

end

/-- The `while` loop of `Parser::parse`. -/
def Parser.parse_loop : Nat → Parser → List Stmt → Except String (List Stmt)
  | 0, _, _ => .error parser_fuel_msg
  | fuel + 1, p, acc => do
      let e ← p.is_at_end
      if e then .ok acc
      else do
        let p ← Parser.skip_newlines (p.tokens.length + 1) p
        let e2 ← p.is_at_end
        if e2 then Parser.parse_loop fuel p acc
        else do
          let (s, p) ← Parser.declaration fuel p
          Parser.parse_loop fuel p (acc ++ [s])

/-- Fuel that always suffices for `Parser::parse`: the recursion of the
parsing functions either consumes a token or descends one level of the
(constant-depth) precedence chain per call. -/
def Parser.fuel_for (tokens : List Token) : Nat := 30 * (tokens.length + 2)

/-- `Parser::parse`: parse a token stream into a statement list. -/
def Parser.parse (tokens : List Token) : Except String (List Stmt) :=
  Parser.parse_loop (Parser.fuel_for tokens) ⟨tokens, 0⟩ []

/-! ## Chunk well-formedness and crash-freedom -/

/-- Bounds required of one instruction in a chunk whose code has length `n`
and whose constant pool has length `k`: constant indices are in range and
jump targets do not point past the end of the code. -/
def op_bound (op : OpCode) (n k : Nat) : Prop :=
  match op with
  | .Constant i => i < k
  | .Jump t => t ≤ n
  | .JumpIfFalse t => t ≤ n
  | _ => True

/-- A chunk is well-formed when every instruction satisfies `op_bound`. -/
def ChunkWF (c : Chunk) : Prop :=
  ∀ op ∈ c.code, op_bound op c.code.length c.constants.length

/-- A step outcome that is not a panic (out-of-bounds indexing). -/
def StepOut.not_crash : StepOut → Prop
  | .crash _ => False
  | _ => True

/-- A run outcome that is not a panic. -/
def RunOut.not_crashed : RunOut → Prop
  | .crashed _ => False
  | _ => True

/-! ## Claim C1 -/

/-- C1: the claim states that a variable declaration introduced by `stel`
or `laat` (for example `laat x = 1`) scans to the variable-declaration
keyword token and parses into a `VarDecl`. In the code this fails: the
lexer keyword table maps "laat" to `Laat` (and no longer maps "stel" at
all, so "stel" scans as an identifier), but `Parser::declaration` only
recognises the `Stel` token - which the lexer can never produce - so
neither `laat x = 1` nor `stel x = 1` parses, and no `VarDecl` can ever be
produced from source text. -/
theorem c1_var_decl_keyword_rejected :
    Lexer.scan_tokens "laat x = 1" =
      .ok [⟨.Laat, "laat", 1⟩, ⟨.Identifier "x", "x", 1⟩, ⟨.Equal, "=", 1⟩,
        ⟨.Number 1, "1", 1⟩, ⟨.Eof, "", 1⟩] ∧
    Parser.parse [⟨.Laat, "laat", 1⟩, ⟨.Identifier "x", "x", 1⟩,
        ⟨.Equal, "=", 1⟩, ⟨.Number 1, "1", 1⟩, ⟨.Eof, "", 1⟩] =
      .error "Verwag uitdrukking op lyn 1." ∧
    Lexer.scan_tokens "stel x = 1" =
      .ok [⟨.Identifier "stel", "stel", 1⟩, ⟨.Identifier "x", "x", 1⟩,
        ⟨.Equal, "=", 1⟩, ⟨.Number 1, "1", 1⟩, ⟨.Eof, "", 1⟩] ∧
    Parser.parse [⟨.Identifier "stel", "stel", 1⟩, ⟨.Identifier "x", "x", 1⟩,
        ⟨.Equal, "=", 1⟩, ⟨.Number 1, "1", 1⟩, ⟨.Eof, "", 1⟩] =
      .error "Verwag nuwe lyn na stelling. (lyn 1)" := by
  refine ⟨?_, ?_, ?_, ?_⟩ <;> rfl

/-! ## Claim C2 -/

/-- C2: the claim states that the `Equal` instruction compares values by
the structural equality of value.rs (so two strings with identical text
compare equal). In the code `VM::run` instead calls `VM::values_equal`,
which only handles numbers, booleans and nil and falls through to `false`
for strings: `Equal` on two copies of the string "a" pushes `false`, while
value.rs's own `PartialEq` (embedded as `value_eq`) returns `true` for the
same pair. -/
theorem c2_equal_ignores_string_contents :
    VM.step ⟨⟨[.Equal], []⟩, 0, [.String "a", .String "a"], Globals.empty, []⟩ =
      .cont ⟨⟨[.Equal], []⟩, 1, [.Boolean false], Globals.empty, []⟩ ∧
    value_eq (.String "a") (.String "a") = true ∧
    values_equal (.String "a") (.String "a") = false := by
  refine ⟨rfl, ?_, rfl⟩
  rw [value_eq]
  rfl

/-! ## Claim C3 -/

/-- C3: the claim states that the value stack is empty once the VM
finishes the top-level `Return`, in particular for a program consisting of
a single variable declaration. In the code the `VarDecl` arm of
`Compiler::compile_stmt` emits the initializer followed by `SetVar` - which
peeks and does not pop - and no `Pop`, so running the chunk compiled from
`VarDecl "x" 1` finishes its `Return` with the value 1 still on the
stack. -/
theorem c3_vardecl_breaks_empty_stack_invariant :
    Compiler.compile [.VarDecl "x" (.Literal (.Number 1))] =
      .ok ⟨[.Constant 0, .SetVar "x", .Return], [.Number 1]⟩ ∧
    VM.run 10 (VM.new ⟨[.Constant 0, .SetVar "x", .Return], [.Number 1]⟩) =
      .finished ⟨⟨[.Constant 0, .SetVar "x", .Return], [.Number 1]⟩, 3,
        [.Number 1], Globals.insert Globals.empty "x" (.Number 1), []⟩ ∧
    ([Value.Number 1] : List Value) ≠ [] := by
  refine ⟨rfl, rfl, by simp⟩

/-! ## Claim C4 -/

/-- C4: the claim states that compiled chunks contain no legacy name-based
`GetVar`/`SetVar` instructions, with variable accesses compiled to the
`GetGlobal`/`GetLocal`/`GetUpvalue` trio instead. In the code
`Compiler::compile_expr` still emits exactly the legacy pair for every
variable read and assignment (and `compile_stmt` emits `SetVar` for
variable declarations); the new trio is never emitted. -/
theorem c4_compiler_emits_legacy_opcodes :
    Compiler.compile [.Expression (.Variable "y"),
        .Expression (.Assign "y" (.Literal (.Number 2)))] =
      .ok ⟨[.GetVar "y", .Pop, .Constant 0, .SetVar "y", .Pop, .Return],
        [.Number 2]⟩ ∧
    OpCode.GetVar "y" ∈
      [OpCode.GetVar "y", .Pop, .Constant 0, .SetVar "y", .Pop, .Return] ∧
    OpCode.SetVar "y" ∈
      [OpCode.GetVar "y", .Pop, .Constant 0, .SetVar "y", .Pop, .Return] := by
  refine ⟨rfl, by simp, by simp⟩

/-! ## Claim C5 -/

/-- C5: the claim (and the comment on `OpCode::Add` in bytecode.rs) states
that `Add` concatenates two string operands. In the code the `Add` arm of
`VM::run` only accepts two numbers and fails with the '+' type error on
two strings instead of pushing their concatenation. -/
theorem c5_add_rejects_strings :
    VM.step ⟨⟨[.Add], []⟩, 0, [.String "b", .String "a"], Globals.empty, []⟩ =
      .err (num_op_msg "+") := rfl

/-! ## Claim C6 -/

/-- C6 counterexample: the claim states that executing the
global-assignment instruction (the code's `SetVar`) for a name that is not
bound in the globals map fails with an undefined-variable error and leaves
the globals unchanged. In the code the `SetVar` arm performs an
unconditional `HashMap::insert` of the peeked top value: with empty
globals, `SetVar "x"` succeeds and binds "x". -/
theorem c6_counterexample_setvar_defines :
    VM.step ⟨⟨[.SetVar "x"], []⟩, 0, [.Number 1], Globals.empty, []⟩ =
      .cont ⟨⟨[.SetVar "x"], []⟩, 1, [.Number 1],
        Globals.insert Globals.empty "x" (.Number 1), []⟩ ∧
    Globals.empty "x" = none ∧
    Globals.insert Globals.empty "x" (.Number 1) "x" = some (.Number 1) := by
  refine ⟨rfl, rfl, ?_⟩
  simp [Globals.insert]

/-- C6 amended: executing `SetVar n` with a non-empty value stack never
fails - it peeks the top value and inserts it into the globals map,
defining `n` whether or not it was previously bound; there is no
undefined-variable check on assignment (only `GetVar` checks). -/
theorem c6_amended_setvar_always_defines :
    ∀ (c : Chunk) (ip : Nat) (name : String) (v : Value) (rest : List Value)
      (g : String → Option Value) (out : List Value),
      c.code.get? ip = some (.SetVar name) →
      VM.step ⟨c, ip, v :: rest, g, out⟩ =
        .cont ⟨c, ip + 1, v :: rest, Globals.insert g name v, out⟩ ∧
      Globals.insert g name v name = some v := by
  intro c ip name v rest g out h
  constructor
  · unfold VM.step
    rw [h]
    rfl
  · simp [Globals.insert]

/-- Witness for the amended C6 at a concrete unbound name. -/
theorem c6_amended_witness :
    VM.step ⟨⟨[.SetVar "z"], []⟩, 0, [.Nil], Globals.empty, []⟩ =
      .cont ⟨⟨[.SetVar "z"], []⟩, 1, [.Nil],
        Globals.insert Globals.empty "z" .Nil, []⟩ ∧
    Globals.insert Globals.empty "z" .Nil "z" = some .Nil :=
  c6_amended_setvar_always_defines ⟨[.SetVar "z"], []⟩ 0 "z" .Nil []
    Globals.empty [] rfl

/-! ## Claim C7 -/

/-- C7: for Number operands, `Divide` fails with the division-by-zero
error iff the divisor is exactly 0 and pushes the quotient otherwise, and
`Modulo` (modelled from the spec, see `VM.exec_modulo`) fails iff the
divisor is exactly 0 and pushes the remainder otherwise. -/
theorem c7_divide_modulo_zero_check :
    (∀ (c : Chunk) (ip : Nat) (x y : ℚ) (rest : List Value)
       (g : String → Option Value) (out : List Value),
       c.code.get? ip = some .Divide →
       VM.step ⟨c, ip, .Number y :: .Number x :: rest, g, out⟩ =
         (if y = 0 then .err div_zero_msg
          else .cont ⟨c, ip + 1, .Number (x / y) :: rest, g, out⟩)) ∧
    (∀ (c : Chunk) (ip : Nat) (x y : ℚ) (rest : List Value)
       (g : String → Option Value) (out : List Value),
       c.code.get? ip = some .Modulo →
       VM.step ⟨c, ip, .Number y :: .Number x :: rest, g, out⟩ =
         (if y = 0 then .err "Modulo deur nul."
          else .cont ⟨c, ip + 1, .Number (rust_rem x y) :: rest, g, out⟩)) := by
  constructor <;>
    (intro c ip x y rest g out h
     unfold VM.step
     rw [h]
     rfl)

/-- Witness for C7: division by zero fails, and 5 % 2 pushes 1. -/
theorem c7_witness :
    VM.step ⟨⟨[.Divide], []⟩, 0, [.Number 0, .Number 1], Globals.empty, []⟩ =
      .err div_zero_msg ∧
    VM.step ⟨⟨[.Modulo], []⟩, 0, [.Number 2, .Number 5], Globals.empty, []⟩ =
      .cont ⟨⟨[.Modulo], []⟩, 1, [.Number 1], Globals.empty, []⟩ := by
  constructor
  · have h := c7_divide_modulo_zero_check.1 ⟨[.Divide], []⟩ 0 1 0 []
      Globals.empty [] rfl
    simpa using h
  · have h := c7_divide_modulo_zero_check.2 ⟨[.Modulo], []⟩ 0 5 2 []
      Globals.empty [] rfl
    have h2 : rust_rem (5 : ℚ) 2 = 1 := by
      unfold rust_rem
      norm_num [Int.tdiv]
    rw [h, if_neg (by norm_num), h2]

/-! ## Claim C8 -/

/-- C8: `JumpIfFalse t` peeks (leaving the stack unchanged) and sets the
instruction pointer to `t` exactly when the top value is falsy, where
truthiness follows the spec's table (nil false; booleans their value;
numbers false iff exactly 0; strings and lists false iff empty;
function-like and ADT values always true). -/
theorem c8_jump_if_false_peeks_and_tests_truthiness :
    (∀ (c : Chunk) (ip t : Nat) (v : Value) (rest : List Value)
       (g : String → Option Value) (out : List Value),
       c.code.get? ip = some (.JumpIfFalse t) →
       VM.step ⟨c, ip, v :: rest, g, out⟩ =
         .cont ⟨c, (if v.is_truthy then ip + 1 else t), v :: rest, g, out⟩) ∧
    Value.is_truthy .Nil = false ∧
    (∀ b, Value.is_truthy (.Boolean b) = b) ∧
    (∀ n : ℚ, Value.is_truthy (.Number n) = decide (n ≠ 0)) ∧
    (∀ s, Value.is_truthy (.String s) = !s.isEmpty) ∧
    (∀ l, Value.is_truthy (.List l) = !l.isEmpty) ∧
    (∀ rc f, Value.is_truthy (.Function rc f) = true) ∧
    (∀ rc f, Value.is_truthy (.Closure rc f) = true) ∧
    (∀ rc name arity, Value.is_truthy (.NativeFunction rc name arity) = true) ∧
    (∀ rc d, Value.is_truthy (.TypeConstructor rc d) = true) ∧
    (∀ rc tn cn fs, Value.is_truthy (.Adt rc tn cn fs) = true) := by
  refine ⟨?_, rfl, fun b => rfl, fun n => rfl, fun s => rfl, fun l => rfl,
    fun rc f => rfl, fun rc f => rfl, fun rc name arity => rfl,
    fun rc d => rfl, fun rc tn cn fs => rfl⟩
  intro c ip t v rest g out h
  unfold VM.step
  rw [h]
  unfold VM.exec
  cases hv : v.is_truthy <;> simp [hv]

/-- Witness for C8 at a falsy top value. -/
theorem c8_witness :
    VM.step ⟨⟨[.JumpIfFalse 7], []⟩, 0, [.Nil], Globals.empty, []⟩ =
      .cont ⟨⟨[.JumpIfFalse 7], []⟩, 7, [.Nil], Globals.empty, []⟩ := by
  have h := c8_jump_if_false_peeks_and_tests_truthiness.1
    ⟨[.JumpIfFalse 7], []⟩ 0 7 .Nil [] Globals.empty [] rfl
  simpa using h

/-! ## Claim C9 -/

/-- C9: executing `SetVar name` on a VM whose stack is non-empty leaves
the value stack exactly unchanged (the value is peeked, not popped),
advances the instruction pointer by one, and changes no VM state other
than the globals entry for `name`. -/
theorem c9_setvar_frame_effect :
    ∀ (vm : VM) (name : String) (v : Value) (rest : List Value),
      vm.chunk.code.get? vm.ip = some (.SetVar name) →
      vm.stack = v :: rest →
      VM.step vm = .cont { vm with
        ip := vm.ip + 1
        globals := Globals.insert vm.globals name v } := by
  intro vm name v rest h hs
  obtain ⟨c, ip, st, g, out⟩ := vm
  simp only at h hs
  subst hs
  unfold VM.step
  rw [h]
  rfl

/-- Witness for C9 at a concrete VM state. -/
theorem c9_witness :
    VM.step ⟨⟨[.SetVar "w"], []⟩, 0, [.Boolean true], Globals.empty, []⟩ =
      .cont ⟨⟨[.SetVar "w"], []⟩, 0 + 1, [.Boolean true],
        Globals.insert Globals.empty "w" (.Boolean true), []⟩ :=
  c9_setvar_frame_effect ⟨⟨[.SetVar "w"], []⟩, 0, [.Boolean true],
    Globals.empty, []⟩ "w" (.Boolean true) [] rfl rfl

/-! ## Helper lemmas towards claim C10 -/

/-- Instruction bounds are monotone in both lengths. -/
theorem op_bound_mono {op : OpCode} {n k n' k' : Nat}
    (h : op_bound op n k) (hn : n ≤ n') (hk : k ≤ k') : op_bound op n' k' := by
  cases op <;> simp [op_bound] at h ⊢ <;> omega

/-- The empty chunk is well-formed. -/
theorem chunkWF_new : ChunkWF Chunk.new := by
  intro op h
  simp [Chunk.new] at h

/-- Writing an instruction that is in bounds for the grown chunk preserves
well-formedness. -/
theorem chunkWF_write {c : Chunk} {op : OpCode} (h : ChunkWF c)
    (hop : op_bound op (c.code.length + 1) c.constants.length) :
    ChunkWF (c.write op).1 := by
  intro x hx
  simp only [Chunk.write, List.mem_append, List.mem_singleton] at hx
  simp only [Chunk.write, List.length_append, List.length_singleton]
  rcases hx with hx | rfl
  · exact op_bound_mono (h x hx) (by omega) (le_refl _)
  · exact hop

/-- Adding a constant preserves well-formedness. -/
theorem chunkWF_add_constant {c : Chunk} {v : Value} (h : ChunkWF c) :
    ChunkWF (c.add_constant v).1 := by
  intro x hx
  simp only [Chunk.add_constant] at hx
  simp only [Chunk.add_constant, List.length_append, List.length_singleton]
  exact op_bound_mono (h x hx) (le_refl _) (by omega)

/-- A successful `patch_jump` whose target is within the code preserves
well-formedness and changes neither length. -/
theorem patch_jump_wf {c : Chunk} {off t : Nat} {c' : Chunk} (h : ChunkWF c)
    (ht : t ≤ c.code.length) (hp : c.patch_jump off t = .ok c') :
    ChunkWF c' ∧ c'.code.length = c.code.length ∧ c'.constants = c.constants := by
  unfold Chunk.patch_jump at hp
  split at hp
  case _ u heq =>
    cases hp
    refine ⟨?_, by simp, rfl⟩
    intro x hx
    simp only [List.length_set]
    rcases List.mem_or_eq_of_mem_set hx with hx | rfl
    · exact h x hx
    · simpa [op_bound] using ht
  case _ u heq =>
    cases hp
    refine ⟨?_, by simp, rfl⟩
    intro x hx
    simp only [List.length_set]
    rcases List.mem_or_eq_of_mem_set hx with hx | rfl
    · exact h x hx
    · simpa [op_bound] using ht
  case _ => cases hp
  case _ => cases hp

/-- Inversion of a successful bind in the `Except String` monad. -/
theorem except_bind_ok {α β : Type} {x : Except String α}
    {f : α → Except String β} {b : β} (h : (x >>= f) = .ok b) :
    ∃ a, x = .ok a ∧ f a = .ok b := by
  cases x with
  | ok a => exact ⟨a, rfl, h⟩
  | error e =>
      simp only [bind, Except.bind] at h
      cases h

/-- Record-literal form of `chunkWF_write`. -/
theorem chunkWF_snoc {c : Chunk} {op : OpCode} (h : ChunkWF c)
    (hop : op_bound op (c.code.length + 1) c.constants.length) :
    ChunkWF ⟨c.code ++ [op], c.constants⟩ :=
  chunkWF_write h hop

/-- Record-literal form of `chunkWF_add_constant`. -/
theorem chunkWF_addc {c : Chunk} {v : Value} (h : ChunkWF c) :
    ChunkWF ⟨c.code, c.constants ++ [v]⟩ :=
  chunkWF_add_constant h

/-- Well-formedness and length monotonicity of `Compiler::compile_expr`:
a successful compilation of an expression into a well-formed chunk yields
a well-formed chunk whose code and constant pool have only grown. -/
theorem compile_expr_wf : ∀ (e : Expr) (c c' : Chunk),
    Compiler.compile_expr e c = .ok c' → ChunkWF c →
    ChunkWF c' ∧ c.code.length ≤ c'.code.length ∧
      c.constants.length ≤ c'.constants.length := by
  intro e
  induction e with
  | Literal lit =>
      intro c c' h hwf
      simp only [Compiler.compile_expr, Chunk.add_constant, Chunk.write] at h
      injection h with h
      subst h
      refine ⟨chunkWF_snoc (chunkWF_addc hwf) ?_, by simp, by simp⟩
      simp [op_bound]
  | Variable name =>
      intro c c' h hwf
      simp only [Compiler.compile_expr, Chunk.write] at h
      injection h with h
      subst h
      exact ⟨chunkWF_snoc hwf (by simp [op_bound]), by simp, by simp⟩
  | Assign name value ih =>
      intro c c' h hwf
      simp only [Compiler.compile_expr] at h
      obtain ⟨c1, h1, h2⟩ := except_bind_ok h
      obtain ⟨hwf1, hlen1, hcon1⟩ := ih c c1 h1 hwf
      simp only [Chunk.write] at h2
      injection h2 with h2
      subst h2
      refine ⟨chunkWF_snoc hwf1 (by simp [op_bound]), by simp; omega, by simpa⟩
  | Grouping inner ih =>
      intro c c' h hwf
      simp only [Compiler.compile_expr] at h
      exact ih c c' h hwf
  | Unary operator right ih =>
      intro c c' h hwf
      simp only [Compiler.compile_expr] at h
      obtain ⟨c1, h1, h2⟩ := except_bind_ok h
      obtain ⟨hwf1, hlen1, hcon1⟩ := ih c c1 h1 hwf
      split at h2 <;>
        first
        | (simp only [Chunk.write] at h2
           injection h2 with h2
           subst h2
           exact ⟨chunkWF_snoc hwf1 (by simp [op_bound]), by simp; omega, by simpa⟩)
        | cases h2
  | Binary left operator right ihl ihr =>
      intro c c' h hwf
      simp only [Compiler.compile_expr] at h
      split at h
      -- And
      case _ =>
        obtain ⟨c1, h1, h2⟩ := except_bind_ok h
        obtain ⟨hwf1, hlen1, hcon1⟩ := ihl c c1 h1 hwf
        simp only [Chunk.write] at h2
        obtain ⟨c4, h3, h4⟩ := except_bind_ok h2
        have hwf3 : ChunkWF ⟨c1.code ++ [OpCode.JumpIfFalse 0] ++ [OpCode.Pop],
            c1.constants⟩ := by
          have w1 : ChunkWF ⟨c1.code ++ [OpCode.JumpIfFalse 0], c1.constants⟩ :=
            chunkWF_snoc hwf1 (by simp [op_bound])
          exact chunkWF_snoc w1 (by simp [op_bound])
        obtain ⟨hwf4, hlen4, hcon4⟩ := ihr _ c4 h3 hwf3
        obtain ⟨hwf', hlen', hcon'⟩ := patch_jump_wf hwf4 (le_refl _) h4
        refine ⟨hwf', ?_, ?_⟩
        · simp at hlen4
          omega
        · simp at hcon4
          rw [hcon']
          omega
      -- Or
      case _ =>
        obtain ⟨c1, h1, h2⟩ := except_bind_ok h
        obtain ⟨hwf1, hlen1, hcon1⟩ := ihl c c1 h1 hwf
        simp only [Chunk.write] at h2
        obtain ⟨c3, hp1, h3⟩ := except_bind_ok h2
        have hwf2 : ChunkWF ⟨c1.code ++ [OpCode.JumpIfFalse 0] ++ [OpCode.Jump 0],
            c1.constants⟩ := by
          have w1 : ChunkWF ⟨c1.code ++ [OpCode.JumpIfFalse 0], c1.constants⟩ :=
            chunkWF_snoc hwf1 (by simp [op_bound])
          exact chunkWF_snoc w1 (by simp [op_bound])
        obtain ⟨hwfp, hlenp, hconp⟩ := patch_jump_wf hwf2 (le_refl _) hp1
        obtain ⟨c5, h4, h5⟩ := except_bind_ok h3
        have hwfq : ChunkWF ⟨c3.code ++ [OpCode.Pop], c3.constants⟩ :=
          chunkWF_snoc hwfp (by simp [op_bound])
        obtain ⟨hwf5, hlen5, hcon5⟩ := ihr _ c5 h4 hwfq
        obtain ⟨hwf', hlen', hcon'⟩ := patch_jump_wf hwf5 (le_refl _) h5
        refine ⟨hwf', ?_, ?_⟩
        · dsimp only at hlenp hlen5
          simp only [List.length_append, List.length_singleton] at hlenp hlen5
          omega
        · dsimp only at hconp hcon5
          rw [hcon']
          rw [hconp] at hcon5
          omega
      -- ordinary binary operators
      case _ =>
        obtain ⟨c1, h1, h2⟩ := except_bind_ok h
        obtain ⟨hwf1, hlen1, hcon1⟩ := ihl c c1 h1 hwf
        obtain ⟨c2, h3, h4⟩ := except_bind_ok h2
        obtain ⟨hwf2, hlen2, hcon2⟩ := ihr c1 c2 h3 hwf1
        split at h4 <;>
          first
          | (simp only [Chunk.write] at h4
             injection h4 with h4
             subst h4
             exact ⟨chunkWF_snoc hwf2 (by simp [op_bound]), by simp; omega,
               by simp; omega⟩)
          | cases h4

mutual

/-- Well-formedness and length monotonicity of `Compiler::compile_stmt`. -/
theorem compile_stmt_wf (s : Stmt) : ∀ (c c' : Chunk),
    Compiler.compile_stmt s c = .ok c' → ChunkWF c →
    ChunkWF c' ∧ c.code.length ≤ c'.code.length ∧
      c.constants.length ≤ c'.constants.length := by
  cases s with
  | Expression expr =>
      intro c c' h hwf
      simp only [Compiler.compile_stmt] at h
      obtain ⟨c1, h1, h2⟩ := except_bind_ok h
      obtain ⟨hwf1, hlen1, hcon1⟩ := compile_expr_wf expr c c1 h1 hwf
      simp only [Chunk.write] at h2
      injection h2 with h2
      subst h2
      exact ⟨chunkWF_snoc hwf1 (by simp [op_bound]), by simp; omega, by simpa⟩
  | Print expr =>
      intro c c' h hwf
      simp only [Compiler.compile_stmt] at h
      obtain ⟨c1, h1, h2⟩ := except_bind_ok h
      obtain ⟨hwf1, hlen1, hcon1⟩ := compile_expr_wf expr c c1 h1 hwf
      simp only [Chunk.write] at h2
      injection h2 with h2
      subst h2
      exact ⟨chunkWF_snoc hwf1 (by simp [op_bound]), by simp; omega, by simpa⟩
  | VarDecl name initializer =>
      intro c c' h hwf
      simp only [Compiler.compile_stmt] at h
      obtain ⟨c1, h1, h2⟩ := except_bind_ok h
      obtain ⟨hwf1, hlen1, hcon1⟩ := compile_expr_wf initializer c c1 h1 hwf
      simp only [Chunk.write] at h2
      injection h2 with h2
      subst h2
      exact ⟨chunkWF_snoc hwf1 (by simp [op_bound]), by simp; omega, by simpa⟩
  | Block statements =>
      intro c c' h hwf
      simp only [Compiler.compile_stmt] at h
      exact compile_stmt_list_wf statements c c' h hwf
  | If condition then_branch else_branch =>
      intro c c' h hwf
      simp only [Compiler.compile_stmt] at h
      obtain ⟨c1, h1, h2⟩ := except_bind_ok h
      obtain ⟨hwf1, hlen1, hcon1⟩ := compile_expr_wf condition c c1 h1 hwf
      simp only [Chunk.write] at h2
      obtain ⟨c2, h3, h4⟩ := except_bind_ok h2
      have hwfA : ChunkWF ⟨c1.code ++ [OpCode.JumpIfFalse 0] ++ [OpCode.Pop],
          c1.constants⟩ := by
        have w1 : ChunkWF ⟨c1.code ++ [OpCode.JumpIfFalse 0], c1.constants⟩ :=
          chunkWF_snoc hwf1 (by simp [op_bound])
        exact chunkWF_snoc w1 (by simp [op_bound])
      obtain ⟨hwf2, hlen2, hcon2⟩ := compile_stmt_wf then_branch _ c2 h3 hwfA
      dsimp only at hlen2 hcon2
      simp only [List.length_append, List.length_singleton] at hlen2
      cases else_branch with
      | none =>
          obtain ⟨c3, hp, h5⟩ := except_bind_ok h4
          obtain ⟨hwf3, hlen3, hcon3⟩ := patch_jump_wf hwf2 (le_refl _) hp
          have hc3 := congrArg List.length hcon3
          injection h5 with h5
          subst h5
          refine ⟨chunkWF_snoc hwf3 (by simp [op_bound]), ?_, ?_⟩
          · simp only [List.length_append, List.length_singleton]
            omega
          · dsimp only
            omega
      | some else_stmt =>
          obtain ⟨c3, hp, h5⟩ := except_bind_ok h4
          have hwfB : ChunkWF ⟨c2.code ++ [OpCode.Jump 0], c2.constants⟩ :=
            chunkWF_snoc hwf2 (by simp [op_bound])
          obtain ⟨hwf3, hlen3, hcon3⟩ := patch_jump_wf hwfB (le_refl _) hp
          have hc3 := congrArg List.length hcon3
          dsimp only at hlen3 hc3
          simp only [List.length_append, List.length_singleton] at hlen3
          obtain ⟨c4, h6, h7⟩ := except_bind_ok h5
          have hwfC : ChunkWF ⟨c3.code ++ [OpCode.Pop], c3.constants⟩ :=
            chunkWF_snoc hwf3 (by simp [op_bound])
          obtain ⟨hwf4, hlen4, hcon4⟩ := compile_stmt_wf else_stmt _ c4 h6 hwfC
          dsimp only at hlen4 hcon4
          simp only [List.length_append, List.length_singleton] at hlen4
          obtain ⟨hwf', hlen', hcon'⟩ := patch_jump_wf hwf4 (le_refl _) h7
          have hc' := congrArg List.length hcon'
          exact ⟨hwf', by omega, by omega⟩
  | While condition body =>
      intro c c' h hwf
      simp only [Compiler.compile_stmt] at h
      obtain ⟨c1, h1, h2⟩ := except_bind_ok h
      obtain ⟨hwf1, hlen1, hcon1⟩ := compile_expr_wf condition c c1 h1 hwf
      simp only [Chunk.write] at h2
      obtain ⟨c2, h3, h4⟩ := except_bind_ok h2
      have hwfA : ChunkWF ⟨c1.code ++ [OpCode.JumpIfFalse 0] ++ [OpCode.Pop],
          c1.constants⟩ := by
        have w1 : ChunkWF ⟨c1.code ++ [OpCode.JumpIfFalse 0], c1.constants⟩ :=
          chunkWF_snoc hwf1 (by simp [op_bound])
        exact chunkWF_snoc w1 (by simp [op_bound])
      obtain ⟨hwf2, hlen2, hcon2⟩ := compile_stmt_wf body _ c2 h3 hwfA
      dsimp only at hlen2 hcon2
      simp only [List.length_append, List.length_singleton] at hlen2
      obtain ⟨c3, hp, h5⟩ := except_bind_ok h4
      have hwfB : ChunkWF ⟨c2.code ++ [OpCode.Jump c.code.length], c2.constants⟩ :=
        chunkWF_snoc hwf2 (by simp only [op_bound]; omega)
      obtain ⟨hwf3, hlen3, hcon3⟩ := patch_jump_wf hwfB (le_refl _) hp
      have hc3 := congrArg List.length hcon3
      dsimp only at hlen3 hc3
      simp only [List.length_append, List.length_singleton] at hlen3
      injection h5 with h5
      subst h5
      refine ⟨chunkWF_snoc hwf3 (by simp [op_bound]), ?_, ?_⟩
      · simp only [List.length_append, List.length_singleton]
        omega
      · dsimp only
        omega

/-- Well-formedness and length monotonicity of sequential statement
compilation. -/
theorem compile_stmt_list_wf (l : List Stmt) : ∀ (c c' : Chunk),
    Compiler.compile_stmt_list l c = .ok c' → ChunkWF c →
    ChunkWF c' ∧ c.code.length ≤ c'.code.length ∧
      c.constants.length ≤ c'.constants.length := by
  cases l with
  | nil =>
      intro c c' h hwf
      simp only [Compiler.compile_stmt_list] at h
      injection h with h
      subst h
      exact ⟨hwf, le_refl _, le_refl _⟩
  | cons s rest =>
      intro c c' h hwf
      simp only [Compiler.compile_stmt_list] at h
      obtain ⟨c1, h1, h2⟩ := except_bind_ok h
      obtain ⟨hwf1, hlen1, hcon1⟩ := compile_stmt_wf s c c1 h1 hwf
      obtain ⟨hwf2, hlen2, hcon2⟩ := compile_stmt_list_wf rest c1 c' h2 hwf1
      exact ⟨hwf2, le_trans hlen1 hlen2, le_trans hcon1 hcon2⟩

end

/-- Executing any instruction that satisfies `op_bound` for the current
chunk never panics: the only panic site in the interpreter loop is the
constant-pool indexing of the `Constant` arm, which `op_bound` rules
out. -/
theorem exec_not_crash (vm : VM) (op : OpCode)
    (h : op_bound op vm.chunk.code.length vm.chunk.constants.length) :
    StepOut.not_crash (VM.exec vm op) := by
  cases op
  case Constant idx =>
    simp only [VM.exec]
    cases hg : vm.chunk.constants.get? idx with
    | some v => simp [StepOut.not_crash]
    | none =>
        rw [List.get?_eq_none] at hg
        simp only [op_bound] at h
        omega
  all_goals
    simp only [VM.exec, VM.exec_modulo]
    (repeat' split) <;> simp [StepOut.not_crash]

/-- A continuing execution step never changes the chunk. -/
theorem exec_chunk_eq (vm : VM) (op : OpCode) (vm' : VM)
    (h : VM.exec vm op = .cont vm') : vm'.chunk = vm.chunk := by
  cases op <;>
    (simp only [VM.exec, VM.exec_modulo] at h
     repeat' split at h) <;>
    (first
      | (injection h with h2
         subst h2
         rfl)
      | cases h)

/-- One iteration of the run loop on a well-formed chunk never panics. -/
theorem step_not_crash (vm : VM) (h : ChunkWF vm.chunk) :
    StepOut.not_crash (VM.step vm) := by
  unfold VM.step
  cases hg : vm.chunk.code.get? vm.ip with
  | none => simp [StepOut.not_crash]
  | some op =>
      have hmem := List.get?_mem hg
      exact exec_not_crash _ op (h op hmem)

/-- A continuing iteration of the run loop never changes the chunk. -/
theorem step_chunk_eq (vm vm' : VM) (h : VM.step vm = .cont vm') :
    vm'.chunk = vm.chunk := by
  unfold VM.step at h
  cases hg : vm.chunk.code.get? vm.ip with
  | none => rw [hg] at h; cases h
  | some op =>
      rw [hg] at h
      dsimp only at h
      exact exec_chunk_eq ⟨vm.chunk, vm.ip + 1, vm.stack, vm.globals, vm.output⟩
        op vm' h

/-- The fuelled run loop on a well-formed chunk never panics. -/
theorem run_not_crashed (fuel : Nat) : ∀ (vm : VM), ChunkWF vm.chunk →
    RunOut.not_crashed (VM.run fuel vm) := by
  induction fuel with
  | zero =>
      intro vm h
      simp [VM.run, RunOut.not_crashed]
  | succ n ih =>
      intro vm h
      simp only [VM.run]
      cases hs : vm.step with
      | halt v => simp [RunOut.not_crashed]
      | err m => simp [RunOut.not_crashed]
      | crash m =>
          have hnc := step_not_crash vm h
          rw [hs] at hnc
          simp [StepOut.not_crash] at hnc
      | cont v =>
          have hc := step_chunk_eq vm v hs
          exact ih v (hc ▸ h)

/-! ## Claim C10 -/

/-- C10: every chunk the compiler accepts is well-formed - each
`Constant k` satisfies `k < constants.length` and each `Jump t` /
`JumpIfFalse t` (after all patches) satisfies `t ≤ code.length` - and
consequently the VM's constant-pool and instruction fetches while running
the compiled chunk never index out of bounds (no run, whatever its fuel,
panics). -/
theorem c10_compiled_chunks_wf_and_fetch_safe (statements : List Stmt)
    (c : Chunk) (h : Compiler.compile statements = .ok c) :
    ((∀ k, OpCode.Constant k ∈ c.code → k < c.constants.length) ∧
     (∀ t, OpCode.Jump t ∈ c.code → t ≤ c.code.length) ∧
     (∀ t, OpCode.JumpIfFalse t ∈ c.code → t ≤ c.code.length)) ∧
    ∀ fuel, RunOut.not_crashed (VM.run fuel (VM.new c)) := by
  have hwf : ChunkWF c := by
    unfold Compiler.compile at h
    obtain ⟨c1, h1, h2⟩ := except_bind_ok h
    obtain ⟨hwf1, _, _⟩ := compile_stmt_list_wf statements Chunk.new c1 h1 chunkWF_new
    simp only [Chunk.write] at h2
    injection h2 with h2
    subst h2
    exact chunkWF_snoc hwf1 (by simp [op_bound])
  refine ⟨⟨?_, ?_, ?_⟩, ?_⟩
  · intro k hk
    simpa [op_bound] using hwf _ hk
  · intro t ht
    simpa [op_bound] using hwf _ ht
  · intro t ht
    simpa [op_bound] using hwf _ ht
  · intro fuel
    exact run_not_crashed fuel (VM.new c) hwf

/-- Witness for C10 on a concrete program containing a constant and a
patched conditional jump. -/
theorem c10_witness :
    Compiler.compile [Stmt.If (.Literal (.Boolean true)) (.Block []) none] =
      .ok ⟨[.Constant 0, .JumpIfFalse 3, .Pop, .Pop, .Return], [.Boolean true]⟩ ∧
    0 < [Value.Boolean true].length ∧
    3 ≤ [OpCode.Constant 0, .JumpIfFalse 3, .Pop, .Pop, .Return].length ∧
    RunOut.not_crashed (VM.run 10 (VM.new
      ⟨[.Constant 0, .JumpIfFalse 3, .Pop, .Pop, .Return], [.Boolean true]⟩)) := by
  have h : Compiler.compile [Stmt.If (.Literal (.Boolean true)) (.Block []) none] =
      .ok ⟨[.Constant 0, .JumpIfFalse 3, .Pop, .Pop, .Return], [.Boolean true]⟩ := rfl
  have H := c10_compiled_chunks_wf_and_fetch_safe _ _ h
  exact ⟨h, H.1.1 0 (by simp), H.1.2.2 3 (by simp), H.2 10⟩
